import Mathlib

set_option linter.unusedVariables false

/-!
Shallow embedding of the meeting-minutes pipeline
(`evaluator.py`, `summarizer.py`, `output_generator.py`, `audio_processor.py`)
and proofs of the specification claims about it.

Python strings are modelled as Lean `String` (a wrapper around `List Char`);
`str.lower` is modelled character-wise (ASCII fragment); numeric scores,
computed with float division in Python, are modelled with exact rationals.
-/

namespace Minutes

/-! ## Python string primitives -/

/-- Models Python's whitespace test used by `str.split()` / `str.strip()`
(ASCII fragment: space, tab, newline, carriage return, vertical tab, form feed). -/
def pyIsSpace (c : Char) : Bool :=
  c == ' ' || c == '\t' || c == '\n' || c == '\r' || c == '\x0b' || c == '\x0c'

/-- Models `str.lower()` (character-wise, ASCII fragment). -/
def pyLower (s : String) : String :=
  ⟨s.data.map Char.toLower⟩

/-- Helper for `pyWords`: accumulates the current word (reversed) while
scanning the character list. -/
def wordsAux : List Char → List Char → List String
  | [], acc => if acc.isEmpty then [] else [⟨acc.reverse⟩]
  | c :: cs, acc =>
    if pyIsSpace c then
      if acc.isEmpty then wordsAux cs [] else (⟨acc.reverse⟩ : String) :: wordsAux cs []
    else wordsAux cs (c :: acc)

/-- Models Python's `str.split()` with no argument: split on runs of
whitespace, discarding empty pieces. -/
def pyWords (s : String) : List String :=
  wordsAux s.data []

/-- Models `str.strip()`: drop whitespace from both ends. -/
def pyStrip (s : String) : String :=
  ⟨(((s.data.dropWhile pyIsSpace).reverse.dropWhile pyIsSpace).reverse)⟩

/-- Helper for `pySplitChar`. -/
def splitCharAux (sep : Char) : List Char → List Char → List String
  | [], acc => [⟨acc.reverse⟩]
  | c :: cs, acc =>
    if c = sep then (⟨acc.reverse⟩ : String) :: splitCharAux sep cs []
    else splitCharAux sep cs (c :: acc)

/-- Models `str.split(sep)` for a one-character separator (empty pieces kept). -/
def pySplitChar (sep : Char) (s : String) : List String :=
  splitCharAux sep s.data []

/-- Models `str.isdigit()` (ASCII fragment): non-empty and all characters digits. -/
def pyIsdigit (s : String) : Bool :=
  !s.data.isEmpty && s.data.all Char.isDigit

/-- Models `s.lstrip(chars)`: drop leading characters belonging to `chars`. -/
def pyLstrip (chars : List Char) (s : String) : String :=
  ⟨s.data.dropWhile (fun c => chars.contains c)⟩

/-- Models `s[:n]` (take the first `n` characters). -/
def pyTake (n : Nat) (s : String) : String :=
  ⟨s.data.take n⟩

/-- After the first occurrence of `marker` in the list, return the remaining
characters; `none` when `marker` does not occur. -/
def dropAfterFirst (marker : List Char) : List Char → Option (List Char)
  | [] => none
  | c :: cs =>
    if marker.isPrefixOf (c :: cs) then some (cs.drop (marker.length - 1))
    else dropAfterFirst marker cs

/-- Fuel-driven scan taking the text after the *last* occurrence of `marker`. -/
def lastPieceFuel (marker : List Char) : Nat → List Char → List Char
  | 0, s => s
  | f + 1, s =>
    match dropAfterFirst marker s with
    | some rest => lastPieceFuel marker f rest
    | none => s

/-- Models `s.split(marker)[-1]` for a non-empty `marker`: the text after the
last occurrence of `marker` (the whole string when `marker` is absent). -/
def pySplitLast (marker : String) (s : String) : String :=
  ⟨lastPieceFuel marker.data s.data.length s.data⟩

/-- Models Python's two-argument `min` (first argument on ties). -/
def pyMin (a b : ℚ) : ℚ := if a ≤ b then a else b

/-- Models Python's two-argument `max` (first argument on ties). -/
def pyMax (a b : ℚ) : ℚ := if b ≤ a then a else b

/-- `|set(a) & set(b)|`: the number of distinct elements common to both lists. -/
def setInterCard {α : Type} [DecidableEq α] (a b : List α) : Nat :=
  (a.toFinset ∩ b.toFinset).card

/-- `|set(a)|`: the number of distinct elements of a list. -/
def setCard {α : Type} [DecidableEq α] (a : List α) : Nat :=
  a.toFinset.card

/-! ## Evaluator (`src/evaluator.py`)

Scores, floats in Python, are modelled as exact rationals. -/

/-- `Evaluator._calculate_wer`: simplified word error rate
`clamp(1 - |set(ref) & set(hyp)| / len(ref_words), 0, 1)` with the
empty-reference special case. -/
def calculate_wer (reference hypothesis : String) : ℚ :=
  let ref_words := pyWords (pyLower reference)
  let hyp_words := pyWords (pyLower hypothesis)
  if ref_words.length = 0 then
    (if hyp_words.length > 0 then 1 else 0)
  else
    let common_words := setInterCard ref_words hyp_words
    let wer : ℚ := 1 - (common_words : ℚ) / (ref_words.length : ℚ)
    pyMax 0 (pyMin 1 wer)

/-- `Evaluator._calculate_cer`: positional character match over the zipped
(lowercased) strings, divided by `len(reference)`, clamped. -/
def calculate_cer (reference hypothesis : String) : ℚ :=
  if reference.data.length = 0 then
    (if hypothesis.data.length > 0 then 1 else 0)
  else
    let common_chars :=
      (((pyLower reference).data.zip (pyLower hypothesis).data).filter
        (fun p => p.1 == p.2)).length
    let cer : ℚ := 1 - (common_chars : ℚ) / (reference.data.length : ℚ)
    pyMax 0 (pyMin 1 cer)

/-- `Evaluator._calculate_bleu`: simplified unigram precision
`|set(ref) & set(hyp)| / |set(hyp)|`. -/
def calculate_bleu (reference hypothesis : String) : ℚ :=
  let ref_words := pyWords (pyLower reference)
  let hyp_words := pyWords (pyLower hypothesis)
  if setCard hyp_words = 0 then 0
  else (setInterCard ref_words hyp_words : ℚ) / (setCard hyp_words : ℚ)

/-- `Evaluator._calculate_rouge_1`: `|set(ref) & set(hyp)| / |set(ref)|`. -/
def calculate_rouge_1 (reference hypothesis : String) : ℚ :=
  let ref_words := pyWords (pyLower reference)
  let hyp_words := pyWords (pyLower hypothesis)
  if setCard ref_words = 0 then 0
  else (setInterCard ref_words hyp_words : ℚ) / (setCard ref_words : ℚ)

/-- `Evaluator._get_bigrams`: consecutive word pairs of the split text. -/
def get_bigrams (text : String) : List (String × String) :=
  let words := pyWords text
  words.zip words.tail

/-- `Evaluator._calculate_rouge_2`:
`|set(ref_bigrams) & set(hyp_bigrams)| / len(ref_bigrams)`. -/
def calculate_rouge_2 (reference hypothesis : String) : ℚ :=
  let ref_bigrams := get_bigrams (pyLower reference)
  let hyp_bigrams := get_bigrams (pyLower hypothesis)
  if ref_bigrams.length = 0 then 0
  else (setInterCard ref_bigrams hyp_bigrams : ℚ) / (ref_bigrams.length : ℚ)

/-- `Evaluator._calculate_rouge_l`: defined in the source as ROUGE-1. -/
def calculate_rouge_l (reference hypothesis : String) : ℚ :=
  calculate_rouge_1 reference hypothesis

/-- `Evaluator._calculate_semantic_similarity`: defined in the source as ROUGE-1. -/
def calculate_semantic_similarity (reference hypothesis : String) : ℚ :=
  calculate_rouge_1 reference hypothesis

/-- The record returned by `Evaluator.evaluate_transcription`. -/
structure TranscriptionMetrics where
  word_error_rate : ℚ
  character_error_rate : ℚ
  bleu_score : ℚ
  accuracy : ℚ
deriving DecidableEq

/-- `Evaluator.evaluate_transcription`. -/
def evaluate_transcription (reference hypothesis : String) : TranscriptionMetrics where
  word_error_rate := calculate_wer reference hypothesis
  character_error_rate := calculate_cer reference hypothesis
  bleu_score := calculate_bleu reference hypothesis
  accuracy := 1 - calculate_wer reference hypothesis

/-- The record returned by `Evaluator.evaluate_summarization`. -/
structure SummarizationMetrics where
  rouge_1 : ℚ
  rouge_2 : ℚ
  rouge_l : ℚ
  semantic_similarity : ℚ
deriving DecidableEq

/-- `Evaluator.evaluate_summarization`. -/
def evaluate_summarization (reference hypothesis : String) : SummarizationMetrics where
  rouge_1 := calculate_rouge_1 reference hypothesis
  rouge_2 := calculate_rouge_2 reference hypothesis
  rouge_l := calculate_rouge_l reference hypothesis
  semantic_similarity := calculate_semantic_similarity reference hypothesis

end Minutes

namespace Minutes

/-! ## Specification-side metric formulas

These definitions transcribe the specification's *wording* of the metric
formulas (distinct-word denominators), to be compared with the code's
formulas above. -/

/-- Written from the spec's words: `wordErrorRate = clamp(1 −
|{distinct lowercase words common to both}| / |{distinct lowercase words in
reference}|, 0, 1)`, and for a reference with zero words, `1.0` if the
hypothesis has at least one word, else `0.0`. -/
def werSpecDistinct (reference hypothesis : String) : ℚ :=
  let refWords := pyWords (pyLower reference)
  let hypWords := pyWords (pyLower hypothesis)
  if refWords.length = 0 then
    (if hypWords.length > 0 then 1 else 0)
  else
    pyMax 0 (pyMin 1 (1 - (setInterCard refWords hypWords : ℚ) / (setCard refWords : ℚ)))

/-- The word-error-rate formula amended to match the code: the denominator is
the reference's *total* word count (duplicates included), not its distinct
word count. -/
def werSpecTotal (reference hypothesis : String) : ℚ :=
  let refWords := pyWords (pyLower reference)
  let hypWords := pyWords (pyLower hypothesis)
  if refWords.length = 0 then
    (if hypWords.length > 0 then 1 else 0)
  else
    pyMax 0 (pyMin 1 (1 - (setInterCard refWords hypWords : ℚ) / (refWords.length : ℚ)))

/-- Written from the spec's words: `rouge2 = |{common distinct lowercase
consecutive-word-pairs}| / |{distinct reference word-pairs}|`, and `0.0` when
the reference has fewer than 2 words. -/
def rouge2SpecDistinct (reference hypothesis : String) : ℚ :=
  let refBigrams := get_bigrams (pyLower reference)
  let hypBigrams := get_bigrams (pyLower hypothesis)
  if (pyWords (pyLower reference)).length < 2 then 0
  else (setInterCard refBigrams hypBigrams : ℚ) / (setCard refBigrams : ℚ)

/-- The ROUGE-2 formula amended to match the code: the denominator is the
*total* number of consecutive word pairs of the reference (its word count
minus one), duplicated pairs included. -/
def rouge2SpecTotal (reference hypothesis : String) : ℚ :=
  let refBigrams := get_bigrams (pyLower reference)
  let hypBigrams := get_bigrams (pyLower hypothesis)
  if (pyWords (pyLower reference)).length < 2 then 0
  else (setInterCard refBigrams hypBigrams : ℚ) / (((pyWords (pyLower reference)).length - 1 : Nat) : ℚ)


/-! ## Summarizer (`src/summarizer.py`)

The text-generation backend (`self.pipeline`) is modelled as an oracle
mapping a prompt to the generated text, with `none` modelling a raised
call-level exception; the ambient clock (`time.sleep`, `datetime.now`) is
modelled by an explicit environment value. -/

/-- Ambient effects read by the pipeline: a clock tick (`time.sleep`) and the
formatted current time (`datetime.now().strftime(...)`, used by the HTML
renderer). -/
structure Env where
  clock : Nat
  nowStr : String

/-- An action-item entry as built by the summarizer. -/
structure ActionItem where
  task : String
  assignee : String
  due_date : String
  priority : String
deriving DecidableEq

/-- The `meeting_info` sub-dictionary of the minutes. -/
structure MeetingInfo where
  title : String
  date : String
  participants : List String
  duration : String
deriving DecidableEq

/-- The structured minutes record returned by `generate_minutes`. -/
structure MinutesRecord where
  meeting_info : MeetingInfo
  summary : String
  key_decisions : List String
  action_items : List ActionItem
  next_steps : List String
  full_transcript : String
deriving DecidableEq

/-- The `meeting_data` dictionary passed to `generate_minutes`; each field is
optional, matching the source's `.get(...)` defaults. `transcript_text` is
`meeting_data['transcript']['text']`. -/
structure MeetingData where
  title : Option String
  date : Option String
  participants : Option (List String)
  transcript_text : Option String

/-- `MeetingSummarizer._estimate_duration`: word count over 150, floored at 1,
rendered as `"<N> minutes"`. -/
def estimate_duration (transcript : String) : String :=
  let word_count := (pyWords transcript).length
  let duration_minutes := max 1 (word_count / 150)
  toString duration_minutes ++ " minutes"

/-- The triple-quoted literal returned (stripped) by
`MeetingSummarizer._generate_demo_summary`. -/
def demoSummaryLiteral : String :=
  "\n        The team meeting covered three main areas: marketing campaign progress, \n        budget analysis, and technical status updates. Key highlights include:\n        \n        • Marketing campaign has completed design phase and is moving to implementation\n        • Budget analysis shows 15% under budget, providing flexibility for additional features\n        • Technical development is on track with no major blockers\n        • Team agreed to allocate extra budget funds to user testing\n        • All systems are ready for the planned launch timeline\n        "

/-- `MeetingSummarizer._generate_demo_summary` (arguments unused in the source). -/
def generate_demo_summary (transcript : String) (max_length : Nat) : String :=
  pyStrip demoSummaryLiteral

/-- `MeetingSummarizer._extract_demo_decisions`. -/
def extract_demo_decisions (transcript : String) : List String :=
  ["Allocate extra budget funds to user testing",
   "Proceed with campaign launch by end of next week"]

/-- `MeetingSummarizer._extract_demo_action_items`. -/
def extract_demo_action_items (transcript : String) : List ActionItem :=
  [{ task := "Finalize campaign launch preparations"
     assignee := "John"
     due_date := "End of next week"
     priority := "High" },
   { task := "Prepare budget reallocation proposal"
     assignee := "Jane"
     due_date := "Next meeting"
     priority := "Medium" }]

/-- `MeetingSummarizer._extract_demo_next_steps`. -/
def extract_demo_next_steps (transcript : String) : List String :=
  ["Review budget reallocation proposal in next meeting",
   "Monitor campaign launch progress",
   "Schedule user testing sessions"]

/-- `MeetingSummarizer._generate_demo_minutes`: the deterministic fallback.
`time.sleep(2)` reads the clock but contributes nothing to the result. -/
def generate_demo_minutes (env : Env) (meeting_data : MeetingData) (max_length : Nat) :
    MinutesRecord :=
  let _sleep := env.clock + 2
  let transcript := meeting_data.transcript_text.getD ""
  { meeting_info :=
      { title := meeting_data.title.getD "Meeting"
        date := meeting_data.date.getD ""
        participants := meeting_data.participants.getD []
        duration := estimate_duration transcript }
    summary := generate_demo_summary transcript max_length
    key_decisions := extract_demo_decisions transcript
    action_items := extract_demo_action_items transcript
    next_steps := extract_demo_next_steps transcript
    full_transcript := transcript }

/-- The prompt built by `MeetingSummarizer._generate_llm_summary` (the
stray `# Limit input length` comment is inside the Python f-string). -/
def summary_prompt (transcript : String) (max_length : Nat) : String :=
  "\n        Please analyze the following meeting transcript and provide a concise summary in "
    ++ toString max_length
    ++ " words or less.\n        Focus on the main topics discussed, key points raised, and overall meeting outcomes.\n        \n        Transcript:\n        "
    ++ pyTake 2000 transcript
    ++ "  # Limit input length\n        \n        Summary:"

/-- The prompt built by `MeetingSummarizer._extract_llm_decisions`. -/
def decisions_prompt (transcript : String) : String :=
  "\n        Analyze this meeting transcript and extract the key decisions that were made.\n        Return only the decisions as a numbered list.\n        \n        Transcript:\n        "
    ++ pyTake 1500 transcript
    ++ "\n        \n        Key Decisions:"

/-- The prompt built by `MeetingSummarizer._extract_llm_action_items`. -/
def action_items_prompt (transcript : String) : String :=
  "\n        Analyze this meeting transcript and extract action items with assignees and due dates.\n        Format as: \"Task - Assignee - Due Date - Priority\"\n        \n        Transcript:\n        "
    ++ pyTake 1500 transcript
    ++ "\n        \n        Action Items:"

/-- The prompt built by `MeetingSummarizer._extract_llm_next_steps`. -/
def next_steps_prompt (transcript : String) : String :=
  "\n        Based on this meeting transcript, what are the logical next steps and follow-up actions?\n        List them as bullet points.\n        \n        Transcript:\n        "
    ++ pyTake 1500 transcript
    ++ "\n        \n        Next Steps:"

/-- `MeetingSummarizer._generate_llm_summary`: call the backend, take the text
after the last `"Summary:"` marker, strip it; fall back to the demo summary on
failure. -/
def generate_llm_summary (oracle : String → Option String) (transcript : String)
    (max_length : Nat) : String :=
  match oracle (summary_prompt transcript max_length) with
  | some generated_text => pyStrip (pySplitLast "Summary:" generated_text)
  | none => generate_demo_summary transcript max_length

/-- `MeetingSummarizer._extract_llm_decisions`: split the text after the last
`"Key Decisions:"` marker on newlines, keep stripped lines that are non-blank
and not purely numeric, truncate to 5; fall back to the demo decisions. -/
def extract_llm_decisions (oracle : String → Option String) (transcript : String) :
    List String :=
  match oracle (decisions_prompt transcript) with
  | some generated_text =>
    let decisions_text := pyStrip (pySplitLast "Key Decisions:" generated_text)
    (((pySplitChar '\n' decisions_text).filterMap fun d =>
      let ds := pyStrip d
      if ds != "" && !pyIsdigit ds then some ds else none)).take 5
  | none => extract_demo_decisions transcript

/-- `MeetingSummarizer._extract_llm_action_items`: over the first 5 newline
pieces after the last `"Action Items:"` marker, parse dash-separated lines
into action items with the documented defaults; fall back to the demo items. -/
def extract_llm_action_items (oracle : String → Option String) (transcript : String) :
    List ActionItem :=
  match oracle (action_items_prompt transcript) with
  | some generated_text =>
    let items_text := pyStrip (pySplitLast "Action Items:" generated_text)
    ((pySplitChar '\n' items_text).take 5).filterMap fun line =>
      if line.data.contains '-' && pyStrip line != "" then
        let parts := (pySplitChar '-' line).map pyStrip
        if parts.length ≥ 2 then
          some { task := parts.getD 0 ""
                 assignee := parts.getD 1 "Unassigned"
                 due_date := parts.getD 2 "TBD"
                 priority := parts.getD 3 "Medium" }
        else none
      else none
  | none => extract_demo_action_items transcript

/-- `MeetingSummarizer._extract_llm_next_steps`: split the text after the last
`"Next Steps:"` marker on newlines, keep non-blank lines stripped of leading
bullet characters, truncate to 5; fall back to the demo steps. -/
def extract_llm_next_steps (oracle : String → Option String) (transcript : String) :
    List String :=
  match oracle (next_steps_prompt transcript) with
  | some generated_text =>
    let steps_text := pyStrip (pySplitLast "Next Steps:" generated_text)
    (((pySplitChar '\n' steps_text).filterMap fun s =>
      if pyStrip s != "" then some (pyLstrip ['•', '-', '*'] (pyStrip s)) else none)).take 5
  | none => extract_demo_next_steps transcript

/-- Backend availability: `ready` carries the generation oracle; `demo` models
`self.model == "demo_mode" or self.pipeline is None`. -/
inductive Backend where
  | ready (oracle : String → Option String)
  | demo

/-- `MeetingSummarizer.generate_minutes`: builds the structured minutes via
the backend when available, otherwise via the demo fallback. -/
def generate_minutes (backend : Backend) (env : Env) (meeting_data : MeetingData)
    (max_length : Nat) : MinutesRecord :=
  let transcript := meeting_data.transcript_text.getD ""
  match backend with
  | Backend.demo => generate_demo_minutes env meeting_data max_length
  | Backend.ready oracle =>
    { meeting_info :=
        { title := meeting_data.title.getD "Meeting"
          date := meeting_data.date.getD ""
          participants := meeting_data.participants.getD []
          duration := estimate_duration transcript }
      summary := generate_llm_summary oracle transcript max_length
      key_decisions := extract_llm_decisions oracle transcript
      action_items := extract_llm_action_items oracle transcript
      next_steps := extract_llm_next_steps oracle transcript
      full_transcript := transcript }

/-- Written from the spec's words: the duration estimate is the transcript's
word count divided by 150 (rounded down, floor of 1), as `"<N> minutes"`. -/
def durationSpec (transcript : String) : String :=
  toString (max 1 ((pyWords transcript).length / 150)) ++ " minutes"


/-! ## JSON (`json.dumps(minutes, indent=2, ensure_ascii=False)` / `json.loads`)

`json` is the Python standard library, not repository code; it is modelled by
a serializer faithful to `json.dumps` with 2-space indentation and
`ensure_ascii=False`, and a parser faithful to `json.loads`, both over the
value fragment a minutes record can produce (strings, sequences, string-keyed
objects). -/

/-- The fragment of JSON values a minutes record serializes to. -/
inductive J where
  | str : String → J
  | arr : List J → J
  | obj : List (String × J) → J
deriving Inhabited

/-- Lowercase hex digit for `n < 16`. -/
def hexDigitChar (n : Nat) : Char :=
  if n < 10 then Char.ofNat (48 + n) else Char.ofNat (87 + n)

/-- How `json.dumps` with `ensure_ascii=False` renders one character inside a
string literal: named escapes for `"`, `\` and the common control characters,
`\u00XX` for the remaining control characters, everything else verbatim. -/
def escChar (c : Char) : List Char :=
  if c = '"' then ['\\', '"']
  else if c = '\\' then ['\\', '\\']
  else if c = '\n' then ['\\', 'n']
  else if c = '\t' then ['\\', 't']
  else if c = '\r' then ['\\', 'r']
  else if c = '\x08' then ['\\', 'b']
  else if c = '\x0c' then ['\\', 'f']
  else if c.toNat < 32 then
    ['\\', 'u', '0', '0', hexDigitChar (c.toNat / 16), hexDigitChar (c.toNat % 16)]
  else [c]

/-- The escaped body of a JSON string literal. -/
def escBody (s : String) : List Char :=
  (s.data.map escChar).flatten

/-- A JSON string literal: quote, escaped body, quote. -/
def encStr (s : String) : List Char :=
  '"' :: (escBody s ++ ['"'])

/-- `n` spaces of indentation. -/
def spacesList (n : Nat) : List Char :=
  List.replicate n ' '

mutual
/-- `json.dumps(v, indent=2, ensure_ascii=False)` at nesting indentation
`ind`: strings as literals; non-empty arrays and objects open on their own
line, members indented by `ind + 2` and separated by `",\n"`, the closing
bracket indented by `ind`. -/
def encJ : Nat → J → List Char
  | _, J.str s => encStr s
  | ind, J.arr l =>
    match l with
    | [] => ['[', ']']
    | x :: xs =>
      '[' :: '\n' :: (encElems (ind + 2) (x :: xs) ++ '\n' :: (spacesList ind ++ [']']))
  | ind, J.obj m =>
    match m with
    | [] => ['\x7b', '\x7d']
    | x :: xs =>
      '\x7b' :: '\n' :: (encMembers (ind + 2) (x :: xs) ++ '\n' :: (spacesList ind ++ ['\x7d']))

/-- Array elements, each on its own line at indentation `ind`. -/
def encElems : Nat → List J → List Char
  | _, [] => []
  | ind, [x] => spacesList ind ++ encJ ind x
  | ind, x :: y :: xs =>
    spacesList ind ++ (encJ ind x ++ ',' :: '\n' :: encElems ind (y :: xs))

/-- Object members `"key": value`, each on its own line at indentation `ind`. -/
def encMembers : Nat → List (String × J) → List Char
  | _, [] => []
  | ind, [(k, v)] => spacesList ind ++ (encStr k ++ ':' :: ' ' :: encJ ind v)
  | ind, (k, v) :: y :: xs =>
    spacesList ind ++
      (encStr k ++ ':' :: ' ' :: (encJ ind v ++ ',' :: '\n' :: encMembers ind (y :: xs)))
end

/-- JSON whitespace: the four characters `json.loads` skips between tokens. -/
def isJsonWs (c : Char) : Bool :=
  c == ' ' || c == '\t' || c == '\n' || c == '\r'

/-- Skip leading JSON whitespace. -/
def skipWs : List Char → List Char
  | [] => []
  | c :: cs => if isJsonWs c then skipWs cs else c :: cs

/-- Value of a hex digit character. -/
def hexVal (c : Char) : Option Nat :=
  if '0' ≤ c ∧ c ≤ '9' then some (c.toNat - 48)
  else if 'a' ≤ c ∧ c ≤ 'f' then some (c.toNat - 87)
  else if 'A' ≤ c ∧ c ≤ 'F' then some (c.toNat - 55)
  else none

/-- The named backslash escapes accepted inside JSON string literals. -/
def unescSimple (e : Char) : Option Char :=
  if e = '"' then some '"'
  else if e = '\\' then some '\\'
  else if e = '/' then some '/'
  else if e = 'b' then some '\x08'
  else if e = 'f' then some '\x0c'
  else if e = 'n' then some '\n'
  else if e = 'r' then some '\r'
  else if e = 't' then some '\t'
  else none

/-- Parse the body of a JSON string literal (opening quote already consumed):
returns the decoded characters and the input after the closing quote. -/
def parseStrBody : List Char → Option (List Char × List Char)
  | [] => none
  | c :: cs =>
    if c = '"' then some ([], cs)
    else if c = '\\' then
      match cs with
      | [] => none
      | e :: cs2 =>
        if e = 'u' then
          match cs2 with
          | h1 :: h2 :: h3 :: h4 :: cs3 =>
            match hexVal h1, hexVal h2, hexVal h3, hexVal h4 with
            | some v1, some v2, some v3, some v4 =>
              (parseStrBody cs3).map
                (fun p => (Char.ofNat (4096 * v1 + 256 * v2 + 16 * v3 + v4) :: p.1, p.2))
            | _, _, _, _ => none
          | _ => none
        else
          match unescSimple e with
          | some d => (parseStrBody cs2).map (fun p => (d :: p.1, p.2))
          | none => none
    else (parseStrBody cs).map (fun p => (c :: p.1, p.2))

mutual
/-- Fuel-driven parser for the JSON value fragment produced by `encJ`,
faithful to `json.loads` on it: skip whitespace, dispatch on the first
character. -/
def parseJ : Nat → List Char → Option (J × List Char)
  | 0, _ => none
  | fuel + 1, cs =>
    match skipWs cs with
    | [] => none
    | c :: cs1 =>
      if c = '"' then (parseStrBody cs1).map (fun p => (J.str ⟨p.1⟩, p.2))
      else if c = '[' then
        (match skipWs cs1 with
         | c2 :: r =>
           if c2 = ']' then some (J.arr [], r)
           else (parseElems fuel cs1).map (fun p => (J.arr p.1, p.2))
         | [] => (parseElems fuel cs1).map (fun p => (J.arr p.1, p.2)))
      else if c = '\x7b' then
        (match skipWs cs1 with
         | c2 :: r =>
           if c2 = '\x7d' then some (J.obj [], r)
           else (parseMembers fuel cs1).map (fun p => (J.obj p.1, p.2))
         | [] => (parseMembers fuel cs1).map (fun p => (J.obj p.1, p.2)))
      else none

/-- One or more comma-separated array elements, then the closing bracket. -/
def parseElems : Nat → List Char → Option (List J × List Char)
  | 0, _ => none
  | fuel + 1, cs =>
    match parseJ fuel cs with
    | none => none
    | some (v, r1) =>
      match skipWs r1 with
      | [] => none
      | c :: r2 =>
        if c = ',' then (parseElems fuel r2).map (fun p => (v :: p.1, p.2))
        else if c = ']' then some ([v], r2)
        else none

/-- One or more comma-separated `"key": value` members, then the closing
brace. -/
def parseMembers : Nat → List Char → Option (List (String × J) × List Char)
  | 0, _ => none
  | fuel + 1, cs =>
    match skipWs cs with
    | [] => none
    | c :: cs1 =>
      if c = '"' then
        (match parseStrBody cs1 with
         | none => none
         | some (k, r1) =>
           match skipWs r1 with
           | [] => none
           | c2 :: r2 =>
             if c2 = ':' then
               (match parseJ fuel r2 with
                | none => none
                | some (v, r3) =>
                  match skipWs r3 with
                  | [] => none
                  | c3 :: r4 =>
                    if c3 = ',' then
                      (parseMembers fuel r4).map (fun p => ((⟨k⟩, v) :: p.1, p.2))
                    else if c3 = '\x7d' then some ([(⟨k⟩, v)], r4)
                    else none)
             else none)
      else none
end


mutual
/-- Sufficient parser fuel for a JSON value. -/
def fuelJ : J → Nat
  | J.str _ => 1
  | J.arr l => 1 + fuelElemsNeed l
  | J.obj m => 1 + fuelMembersNeed m

/-- Sufficient parser fuel for an array element list. -/
def fuelElemsNeed : List J → Nat
  | [] => 0
  | x :: xs => 1 + max (fuelJ x) (fuelElemsNeed xs)

/-- Sufficient parser fuel for an object member list. -/
def fuelMembersNeed : List (String × J) → Nat
  | [] => 0
  | kv :: xs => 1 + max (fuelJ kv.2) (fuelMembersNeed xs)
end

/-- `json.dumps(v, indent=2, ensure_ascii=False)` as a string. -/
def jsonDumps (j : J) : String :=
  ⟨encJ 0 j⟩

/-- `json.loads`: parse one value, then require only whitespace to remain. -/
def jsonLoads (s : String) : Option J :=
  match parseJ (s.data.length + 1) s.data with
  | some (v, r) => if skipWs r = [] then some v else none
  | none => none

/-- Key lookup in a JSON object. -/
def jLookup (k : String) : J → Option J
  | J.obj ms => ms.lookup k
  | _ => none

/-- The keys of a JSON object, in order. -/
def jObjKeys : J → List String
  | J.obj ms => ms.map Prod.fst
  | _ => []

/-- The elements of a JSON array. -/
def jArrElems : J → List J
  | J.arr l => l
  | _ => []

/-- The payload of a JSON string. -/
def jStr? : J → Option String
  | J.str s => some s
  | _ => none

/-- The JSON object an action item serializes to. -/
def actionItemToJson (a : ActionItem) : J :=
  J.obj [("task", J.str a.task), ("assignee", J.str a.assignee),
         ("due_date", J.str a.due_date), ("priority", J.str a.priority)]

/-- The JSON value `json.dumps` receives for a minutes record: the nested
dictionary literal built by `generate_minutes`, field for field. -/
def minutesToJson (m : MinutesRecord) : J :=
  J.obj
    [("meeting_info", J.obj
        [("title", J.str m.meeting_info.title),
         ("date", J.str m.meeting_info.date),
         ("participants", J.arr (m.meeting_info.participants.map J.str)),
         ("duration", J.str m.meeting_info.duration)]),
     ("summary", J.str m.summary),
     ("key_decisions", J.arr (m.key_decisions.map J.str)),
     ("action_items", J.arr (m.action_items.map actionItemToJson)),
     ("next_steps", J.arr (m.next_steps.map J.str)),
     ("full_transcript", J.str m.full_transcript)]

/-- Decode a JSON value back into an action item (inverse of
`actionItemToJson`). -/
def actionItemFromJson (j : J) : Option ActionItem :=
  match (jLookup "task" j).bind jStr?, (jLookup "assignee" j).bind jStr?,
      (jLookup "due_date" j).bind jStr?, (jLookup "priority" j).bind jStr? with
  | some t, some a, some d, some p => some ⟨t, a, d, p⟩
  | _, _, _, _ => none

/-- Decode a JSON value back into a minutes record (inverse of
`minutesToJson`). -/
def minutesFromJson (j : J) : Option MinutesRecord :=
  match jLookup "meeting_info" j with
  | none => none
  | some info =>
    match (jLookup "title" info).bind jStr?, (jLookup "date" info).bind jStr?,
        jLookup "participants" info, (jLookup "duration" info).bind jStr? with
    | some ti, some da, some pa, some du =>
      match (jArrElems pa).mapM jStr? with
      | none => none
      | some parts =>
        match (jLookup "summary" j).bind jStr?, jLookup "key_decisions" j,
            jLookup "action_items" j, jLookup "next_steps" j,
            (jLookup "full_transcript" j).bind jStr? with
        | some su, some kd, some ai, some ns, some ft =>
          match (jArrElems kd).mapM jStr?, (jArrElems ai).mapM actionItemFromJson,
              (jArrElems ns).mapM jStr? with
          | some decisions, some items, some steps =>
            some ⟨⟨ti, da, parts, du⟩, su, decisions, items, steps, ft⟩
          | _, _, _ => none
        | _, _, _, _, _ => none
    | _, _, _, _ => none


/-! ## Output generator (`src/output_generator.py`)

Byte payloads (`str.encode('utf-8')`) are modelled by the strings themselves;
UTF-8 encoding is injective, so nothing is lost. -/

/-- `OutputGenerator._generate_json`: serialize the whole minutes record with
`json.dumps(minutes, indent=2, ensure_ascii=False)`. -/
def generate_json (minutes : MinutesRecord) : String :=
  jsonDumps (minutesToJson minutes)

/-- `OutputGenerator._generate_html`: fill the fixed document template with the
record's fields; the timestamp comes from the clock environment
(`datetime.now().strftime('%Y-%m-%d %H:%M:%S')`). -/
def generate_html (env : Env) (minutes : MinutesRecord) : String :=
  let decisions_html := String.join (minutes.key_decisions.map fun decision =>
    "<div class=\"decision\">• " ++ decision ++ "</div>")
  let action_items_html := String.join (minutes.action_items.map fun item =>
    "<div class=\"action-item\"><strong>" ++ item.assignee ++ ":</strong> "
      ++ item.task ++ " <em>(Due: " ++ item.due_date ++ ")</em></div>")
  let next_steps_html := String.join (minutes.next_steps.map fun step =>
    "<li>" ++ step ++ "</li>")
  "\n            <!DOCTYPE html>\n            <html lang=\"en\">\n            <head>\n                <meta charset=\"UTF-8\">\n                <meta name=\"viewport\" content=\"width=device-width, initial-scale=1.0\">\n                <title>Meeting Minutes - "
    ++ (minutes.meeting_info.title)
    ++ "</title>\n                <style>\n                    body \x7b\n                        font-family: Arial, sans-serif;\n                        max-width: 800px;\n                        margin: 0 auto;\n                        padding: 20px;\n                        line-height: 1.6;\n                    \x7d\n                    .header \x7b\n                        background-color: #f4f4f4;\n                        padding: 20px;\n                        border-radius: 5px;\n                        margin-bottom: 20px;\n                    \x7d\n                    .section \x7b\n                        margin-bottom: 30px;\n                    \x7d\n                    .action-item \x7b\n                        background-color: #fff3cd;\n                        padding: 10px;\n                        margin: 5px 0;\n                        border-left: 4px solid #ffc107;\n                    \x7d\n                    .decision \x7b\n                        background-color: #d1ecf1;\n                        padding: 10px;\n                        margin: 5px 0;\n                        border-left: 4px solid #17a2b8;\n                    \x7d\n                    h1, h2 \x7b\n                        color: #333;\n                    \x7d\n                    .timestamp \x7b\n                        color: #666;\n                        font-size: 0.9em;\n                    \x7d\n                </style>\n            </head>\n            <body>\n                <div class=\"header\">\n                    <h1>Meeting Minutes: "
    ++ (minutes.meeting_info.title)
    ++ "</h1>\n                    <p><strong>Date:</strong> "
    ++ (minutes.meeting_info.date)
    ++ "</p>\n                    <p><strong>Duration:</strong> "
    ++ (minutes.meeting_info.duration)
    ++ "</p>\n                    <p><strong>Participants:</strong> "
    ++ (String.intercalate ", " minutes.meeting_info.participants)
    ++ "</p>\n                </div>\n                \n                <div class=\"section\">\n                    <h2>📋 Summary</h2>\n                    <p>"
    ++ (minutes.summary)
    ++ "</p>\n                </div>\n                \n                <div class=\"section\">\n                    <h2>🎯 Key Decisions</h2>\n                    "
    ++ (decisions_html)
    ++ "\n                </div>\n                \n                <div class=\"section\">\n                    <h2>✅ Action Items</h2>\n                    "
    ++ (action_items_html)
    ++ "\n                </div>\n                \n                <div class=\"section\">\n                    <h2>🔄 Next Steps</h2>\n                    <ul>\n                        "
    ++ (next_steps_html)
    ++ "\n                    </ul>\n                </div>\n                \n                <div class=\"section\">\n                    <h2>📝 Full Transcript</h2>\n                    <div style=\"background-color: #f8f9fa; padding: 15px; border-radius: 5px;\">\n                        <pre style=\"white-space: pre-wrap;\">"
    ++ (minutes.full_transcript)
    ++ "</pre>\n                    </div>\n                </div>\n                \n                <footer style=\"margin-top: 40px; text-align: center; color: #666;\">\n                    <p class=\"timestamp\">Generated on "
    ++ (env.nowStr)
    ++ "</p>\n                </footer>\n            </body>\n            </html>\n            "

/-- `OutputGenerator._generate_pdf`: the plain-text placeholder document. -/
def generate_pdf (minutes : MinutesRecord) : String :=
  "\n            Meeting Minutes: " ++ minutes.meeting_info.title
    ++ "\n            Date: " ++ minutes.meeting_info.date
    ++ "\n            \n            Summary:\n            " ++ minutes.summary
    ++ "\n            \n            Key Decisions:\n            "
    ++ String.intercalate "\n" (minutes.key_decisions.map fun decision => "• " ++ decision)
    ++ "\n            \n            Action Items:\n            "
    ++ String.intercalate "\n" (minutes.action_items.map fun item =>
        "• " ++ item.assignee ++ ": " ++ item.task)
    ++ "\n            "

/-- Insertion into a Python `dict` (ordered, in-place update of an existing
key). -/
def dictInsert (k v : String) (d : List (String × String)) : List (String × String) :=
  if d.any (fun p => p.1 == k) then
    d.map (fun p => if p.1 == k then (k, v) else p)
  else d ++ [(k, v)]

/-- One iteration of the `generate_outputs` dispatch loop: render the
recognized format into the accumulating dictionary, skip anything else. -/
def outputsStep (env : Env) (minutes : MinutesRecord)
    (outputs : List (String × String)) (format_name : String) : List (String × String) :=
  if format_name = "JSON" then dictInsert "JSON" (generate_json minutes) outputs
  else if format_name = "HTML" then dictInsert "HTML" (generate_html env minutes) outputs
  else if format_name = "PDF" then dictInsert "PDF" (generate_pdf minutes) outputs
  else outputs

/-- `OutputGenerator.generate_outputs`: for each requested format name,
dispatch to the matching renderer; anything else falls through silently. -/
def generate_outputs (env : Env) (minutes : MinutesRecord) (formats : List String) :
    List (String × String) :=
  formats.foldl (outputsStep env minutes) []

/-! ## Audio processor (`src/audio_processor.py`) -/

/-- `AudioProcessor.supported_formats`. -/
def supported_formats : List String :=
  [".mp3", ".wav", ".mp4", ".avi", ".mov", ".mkv"]

/-- `pathlib.PurePath.name` (POSIX fragment): the final path component, with
empty and `.` components dropped. -/
def pathName (p : String) : String :=
  ((pySplitChar '/' p).filter (fun comp => comp != "" && comp != ".")).getLastD ""

/-- `pathlib.PurePath.suffix`: the final component's extension, i.e. its part
from the last dot, when that dot is neither the first nor the last character. -/
def pathSuffix (p : String) : String :=
  let name := (pathName p).data
  match (name.reverse.findIdx? (fun c => c = '.')) with
  | some k =>
    let i := name.length - 1 - k
    if 0 < i ∧ i < name.length - 1 then ⟨name.drop i⟩ else ""
  | none => ""

/-- `AudioProcessor.validate_file`: the lowercased extension must belong to
the supported list. -/
def validate_file (file_path : String) : Bool :=
  let file_ext := pyLower (pathSuffix file_path)
  supported_formats.contains file_ext

/-- The concrete record of the spec's JSON round-trip example: title
`"Test"`, one decision, one action item. -/
def sampleRecord : MinutesRecord where
  meeting_info :=
    { title := "Test"
      date := "2024-01-01"
      participants := ["Alice"]
      duration := "1 minutes" }
  summary := "A short summary"
  key_decisions := ["Ship it"]
  action_items :=
    [{ task := "Prepare release"
       assignee := "Alice"
       due_date := "TBD"
       priority := "High" }]
  next_steps := ["Follow up"]
  full_transcript := "hello world"

/-! ## JSON string literal round-trip lemmas -/

theorem hexVal_hexDigitChar {n : Nat} (h : n < 16) : hexVal (hexDigitChar n) = some n := by
  interval_cases n <;> rfl

theorem parseStrBody_u (h1 h2 h3 h4 : Char) (v1 v2 v3 v4 : Nat) (tail : List Char)
    (e1 : hexVal h1 = some v1) (e2 : hexVal h2 = some v2)
    (e3 : hexVal h3 = some v3) (e4 : hexVal h4 = some v4) :
    parseStrBody ('\\' :: 'u' :: h1 :: h2 :: h3 :: h4 :: tail)
      = (parseStrBody tail).map
          (fun p => (Char.ofNat (4096 * v1 + 256 * v2 + 16 * v3 + v4) :: p.1, p.2)) := by
  rw [parseStrBody.eq_def]
  simp only [if_neg (show ¬ ('\\' : Char) = '"' by decide), if_pos rfl]
  rw [e1, e2, e3, e4]
  simp only [if_pos trivial]

theorem parseStrBody_named (e d : Char) (tail : List Char)
    (he : ¬ e = 'u') (hd : unescSimple e = some d) :
    parseStrBody ('\\' :: e :: tail) = (parseStrBody tail).map (fun p => (d :: p.1, p.2)) := by
  rw [parseStrBody.eq_def]
  simp only [if_neg (show ¬ ('\\' : Char) = '"' by decide), if_pos rfl, if_neg he, hd]
  simp only [if_pos trivial]

theorem parseStrBody_cons_plain {c : Char} (tail : List Char)
    (h1 : ¬ c = '"') (h2 : ¬ c = '\\') :
    parseStrBody (c :: tail) = (parseStrBody tail).map (fun p => (c :: p.1, p.2)) := by
  rw [parseStrBody.eq_def]
  simp only [if_neg h1, if_neg h2]

theorem parseStrBody_esc (c : Char) (tail : List Char) :
    parseStrBody (escChar c ++ tail) = (parseStrBody tail).map (fun p => (c :: p.1, p.2)) := by
  unfold escChar
  by_cases h1 : c = '"'
  · subst h1; rw [if_pos rfl]; exact parseStrBody_named '"' '"' tail (by decide) rfl
  rw [if_neg h1]
  by_cases h2 : c = '\\'
  · subst h2; rw [if_pos rfl]; exact parseStrBody_named '\\' '\\' tail (by decide) rfl
  rw [if_neg h2]
  by_cases h3 : c = '\n'
  · subst h3; rw [if_pos rfl]; exact parseStrBody_named 'n' '\n' tail (by decide) rfl
  rw [if_neg h3]
  by_cases h4 : c = '\t'
  · subst h4; rw [if_pos rfl]; exact parseStrBody_named 't' '\t' tail (by decide) rfl
  rw [if_neg h4]
  by_cases h5 : c = '\r'
  · subst h5; rw [if_pos rfl]; exact parseStrBody_named 'r' '\r' tail (by decide) rfl
  rw [if_neg h5]
  by_cases h6 : c = '\x08'
  · subst h6; rw [if_pos rfl]; exact parseStrBody_named 'b' '\x08' tail (by decide) rfl
  rw [if_neg h6]
  by_cases h7 : c = '\x0c'
  · subst h7; rw [if_pos rfl]; exact parseStrBody_named 'f' '\x0c' tail (by decide) rfl
  rw [if_neg h7]
  by_cases h8 : c.toNat < 32
  · rw [if_pos h8]
    have d1 : c.toNat / 16 < 16 := by omega
    have d2 : c.toNat % 16 < 16 := Nat.mod_lt _ (by norm_num)
    show parseStrBody ('\\' :: 'u' :: '0' :: '0'
        :: hexDigitChar (c.toNat / 16) :: hexDigitChar (c.toNat % 16) :: tail) = _
    rw [parseStrBody_u '0' '0' _ _ 0 0 (c.toNat / 16) (c.toNat % 16) tail rfl rfl
      (hexVal_hexDigitChar d1) (hexVal_hexDigitChar d2)]
    have hv : 4096 * 0 + 256 * 0 + 16 * (c.toNat / 16) + c.toNat % 16 = c.toNat := by omega
    rw [hv, Char.ofNat_toNat]
  · rw [if_neg h8]
    show parseStrBody (c :: tail) = _
    exact parseStrBody_cons_plain tail h1 h2

theorem parseStrBody_escBody (d : List Char) (rest : List Char) :
    parseStrBody ((d.map escChar).flatten ++ '"' :: rest) = some (d, rest) := by
  induction d with
  | nil =>
    rw [List.map_nil, List.flatten_nil, List.nil_append, parseStrBody.eq_def]
    simp only [if_pos rfl, if_pos trivial]
  | cons c cs ih =>
    simp only [List.map_cons, List.flatten_cons, List.append_assoc]
    rw [parseStrBody_esc, ih]
    rfl

theorem parseStrBody_encStr_tail (s : String) (rest : List Char) :
    parseStrBody (escBody s ++ '"' :: rest) = some (s.data, rest) :=
  parseStrBody_escBody s.data rest


/-! ## JSON parser step lemmas -/

theorem skipWs_not_ws {c : Char} (cs : List Char) (h : isJsonWs c = false) :
    skipWs (c :: cs) = c :: cs := by
  rw [skipWs]
  simp [h]

theorem skipWs_ws {c : Char} (cs : List Char) (h : isJsonWs c = true) :
    skipWs (c :: cs) = skipWs cs := by
  rw [skipWs]
  simp [h]

theorem skipWs_spaces (n : Nat) (cs : List Char) :
    skipWs (spacesList n ++ cs) = skipWs cs := by
  induction n with
  | zero => rfl
  | succ k ih =>
    rw [spacesList, List.replicate_succ, List.cons_append, skipWs_ws _ (by decide)]
    exact ih

theorem skipWs_idem (cs : List Char) : skipWs (skipWs cs) = skipWs cs := by
  induction cs with
  | nil => rfl
  | cons c cs ih =>
    by_cases h : isJsonWs c = true
    · rw [skipWs_ws _ h]; exact ih
    · rw [skipWs_not_ws _ (by simpa using h), skipWs_not_ws _ (by simpa using h)]

theorem parseJ_cons_quote (fuel : Nat) (cs cs1 : List Char) (h : skipWs cs = '"' :: cs1) :
    parseJ (fuel + 1) cs = (parseStrBody cs1).map (fun p => (J.str ⟨p.1⟩, p.2)) := by
  rw [parseJ.eq_def]
  dsimp only
  rw [h]
  dsimp only
  rw [if_pos rfl]

theorem parseJ_cons_arr (fuel : Nat) (cs cs1 : List Char) (h : skipWs cs = '[' :: cs1) :
    parseJ (fuel + 1) cs =
      (match skipWs cs1 with
       | c2 :: r =>
         if c2 = ']' then some (J.arr [], r)
         else (parseElems fuel cs1).map (fun p => (J.arr p.1, p.2))
       | [] => (parseElems fuel cs1).map (fun p => (J.arr p.1, p.2))) := by
  rw [parseJ.eq_def]
  dsimp only
  rw [h]
  dsimp only
  rw [if_neg (by decide), if_pos rfl]

theorem parseJ_arr_close (fuel : Nat) (cs cs1 r : List Char)
    (h : skipWs cs = '[' :: cs1) (h2 : skipWs cs1 = ']' :: r) :
    parseJ (fuel + 1) cs = some (J.arr [], r) := by
  rw [parseJ_cons_arr fuel cs cs1 h, h2]
  dsimp only
  rw [if_pos rfl]

theorem parseJ_arr_go (fuel : Nat) (cs cs1 : List Char) (c2 : Char) (r : List Char)
    (h : skipWs cs = '[' :: cs1) (h2 : skipWs cs1 = c2 :: r) (hne : ¬ c2 = ']') :
    parseJ (fuel + 1) cs = (parseElems fuel cs1).map (fun p => (J.arr p.1, p.2)) := by
  rw [parseJ_cons_arr fuel cs cs1 h, h2]
  dsimp only
  rw [if_neg hne]

theorem parseJ_cons_obj (fuel : Nat) (cs cs1 : List Char) (h : skipWs cs = '\x7b' :: cs1) :
    parseJ (fuel + 1) cs =
      (match skipWs cs1 with
       | c2 :: r =>
         if c2 = '\x7d' then some (J.obj [], r)
         else (parseMembers fuel cs1).map (fun p => (J.obj p.1, p.2))
       | [] => (parseMembers fuel cs1).map (fun p => (J.obj p.1, p.2))) := by
  rw [parseJ.eq_def]
  dsimp only
  rw [h]
  dsimp only
  rw [if_neg (by decide), if_neg (by decide), if_pos rfl]

theorem parseJ_obj_close (fuel : Nat) (cs cs1 r : List Char)
    (h : skipWs cs = '\x7b' :: cs1) (h2 : skipWs cs1 = '\x7d' :: r) :
    parseJ (fuel + 1) cs = some (J.obj [], r) := by
  rw [parseJ_cons_obj fuel cs cs1 h, h2]
  dsimp only
  rw [if_pos rfl]

theorem parseJ_obj_go (fuel : Nat) (cs cs1 : List Char) (c2 : Char) (r : List Char)
    (h : skipWs cs = '\x7b' :: cs1) (h2 : skipWs cs1 = c2 :: r) (hne : ¬ c2 = '\x7d') :
    parseJ (fuel + 1) cs = (parseMembers fuel cs1).map (fun p => (J.obj p.1, p.2)) := by
  rw [parseJ_cons_obj fuel cs cs1 h, h2]
  dsimp only
  rw [if_neg hne]

theorem parseElems_step (fuel : Nat) (cs r1 r2 : List Char) (v : J) (c : Char)
    (h1 : parseJ fuel cs = some (v, r1)) (h2 : skipWs r1 = c :: r2) :
    parseElems (fuel + 1) cs =
      (if c = ',' then (parseElems fuel r2).map (fun p => (v :: p.1, p.2))
       else if c = ']' then some ([v], r2)
       else none) := by
  rw [parseElems.eq_def]
  dsimp only
  rw [h1]
  dsimp only
  rw [h2]

theorem parseElems_last (fuel : Nat) (cs r1 r2 : List Char) (v : J)
    (h1 : parseJ fuel cs = some (v, r1)) (h2 : skipWs r1 = ']' :: r2) :
    parseElems (fuel + 1) cs = some ([v], r2) := by
  rw [parseElems_step fuel cs r1 r2 v ']' h1 h2]
  rw [if_neg (by decide), if_pos rfl]

theorem parseElems_comma (fuel : Nat) (cs r1 r2 : List Char) (v : J)
    (h1 : parseJ fuel cs = some (v, r1)) (h2 : skipWs r1 = ',' :: r2) :
    parseElems (fuel + 1) cs = (parseElems fuel r2).map (fun p => (v :: p.1, p.2)) := by
  rw [parseElems_step fuel cs r1 r2 v ',' h1 h2]
  rw [if_pos rfl]

theorem parseMembers_step (fuel : Nat) (cs cs1 r1 r2 r3 r4 : List Char)
    (k : List Char) (v : J) (c3 : Char)
    (h0 : skipWs cs = '"' :: cs1)
    (h1 : parseStrBody cs1 = some (k, r1))
    (h2 : skipWs r1 = ':' :: r2)
    (h3 : parseJ fuel r2 = some (v, r3))
    (h4 : skipWs r3 = c3 :: r4) :
    parseMembers (fuel + 1) cs =
      (if c3 = ',' then (parseMembers fuel r4).map (fun p => ((⟨k⟩, v) :: p.1, p.2))
       else if c3 = '\x7d' then some ([(⟨k⟩, v)], r4)
       else none) := by
  rw [parseMembers.eq_def]
  dsimp only
  rw [h0]
  dsimp only
  rw [if_pos rfl, h1]
  dsimp only
  rw [h2]
  dsimp only
  rw [if_pos rfl, h3]
  dsimp only
  rw [h4]

theorem parseMembers_last (fuel : Nat) (cs cs1 r1 r2 r3 r4 : List Char)
    (k : List Char) (v : J)
    (h0 : skipWs cs = '"' :: cs1)
    (h1 : parseStrBody cs1 = some (k, r1))
    (h2 : skipWs r1 = ':' :: r2)
    (h3 : parseJ fuel r2 = some (v, r3))
    (h4 : skipWs r3 = '\x7d' :: r4) :
    parseMembers (fuel + 1) cs = some ([(⟨k⟩, v)], r4) := by
  rw [parseMembers_step fuel cs cs1 r1 r2 r3 r4 k v '\x7d' h0 h1 h2 h3 h4]
  rw [if_neg (by decide), if_pos rfl]

theorem parseMembers_comma (fuel : Nat) (cs cs1 r1 r2 r3 r4 : List Char)
    (k : List Char) (v : J)
    (h0 : skipWs cs = '"' :: cs1)
    (h1 : parseStrBody cs1 = some (k, r1))
    (h2 : skipWs r1 = ':' :: r2)
    (h3 : parseJ fuel r2 = some (v, r3))
    (h4 : skipWs r3 = ',' :: r4) :
    parseMembers (fuel + 1) cs =
      (parseMembers fuel r4).map (fun p => ((⟨k⟩, v) :: p.1, p.2)) := by
  rw [parseMembers_step fuel cs cs1 r1 r2 r3 r4 k v ',' h0 h1 h2 h3 h4]
  rw [if_pos rfl]


/-! ## JSON encoder shape lemmas -/

theorem encJ_str (ind : Nat) (s : String) : encJ ind (J.str s) = encStr s := by
  rw [encJ.eq_def]

theorem encJ_arr_nil (ind : Nat) : encJ ind (J.arr []) = ['[', ']'] := by
  rw [encJ.eq_def]

theorem encJ_arr_cons (ind : Nat) (x : J) (xs : List J) :
    encJ ind (J.arr (x :: xs)) =
      '[' :: '\n' :: (encElems (ind + 2) (x :: xs) ++ '\n' :: (spacesList ind ++ [']'])) := by
  rw [encJ.eq_def]

theorem encJ_obj_nil (ind : Nat) : encJ ind (J.obj []) = ['\x7b', '\x7d'] := by
  rw [encJ.eq_def]

theorem encJ_obj_cons (ind : Nat) (x : String × J) (xs : List (String × J)) :
    encJ ind (J.obj (x :: xs)) =
      '\x7b' :: '\n' :: (encMembers (ind + 2) (x :: xs) ++ '\n' :: (spacesList ind ++ ['\x7d'])) := by
  rw [encJ.eq_def]

theorem encElems_single (ind : Nat) (x : J) :
    encElems ind [x] = spacesList ind ++ encJ ind x := by
  rw [encElems.eq_def]

theorem encElems_cons (ind : Nat) (x y : J) (xs : List J) :
    encElems ind (x :: y :: xs) =
      spacesList ind ++ (encJ ind x ++ ',' :: '\n' :: encElems ind (y :: xs)) := by
  rw [encElems.eq_def]

theorem encMembers_single (ind : Nat) (k : String) (v : J) :
    encMembers ind [(k, v)] = spacesList ind ++ (encStr k ++ ':' :: ' ' :: encJ ind v) := by
  rw [encMembers.eq_def]

theorem encMembers_cons (ind : Nat) (k : String) (v : J) (y : String × J)
    (xs : List (String × J)) :
    encMembers ind ((k, v) :: y :: xs) =
      spacesList ind ++
        (encStr k ++ ':' :: ' ' :: (encJ ind v ++ ',' :: '\n' :: encMembers ind (y :: xs))) := by
  rw [encMembers.eq_def]

/-- The first character of an encoded value is `"`, `[` or the opening brace;
in particular it is not whitespace, not `]`, and not the closing brace. -/
theorem encJ_head (ind : Nat) (j : J) :
    ∃ tl, (encJ ind j = '"' :: tl ∨ encJ ind j = '[' :: tl ∨ encJ ind j = '\x7b' :: tl) := by
  cases j with
  | str s => exact ⟨_, Or.inl (encJ_str ind s)⟩
  | arr l =>
    cases l with
    | nil => exact ⟨_, Or.inr (Or.inl (encJ_arr_nil ind))⟩
    | cons x xs => exact ⟨_, Or.inr (Or.inl (encJ_arr_cons ind x xs))⟩
  | obj m =>
    cases m with
    | nil => exact ⟨_, Or.inr (Or.inr (encJ_obj_nil ind))⟩
    | cons x xs => exact ⟨_, Or.inr (Or.inr (encJ_obj_cons ind x xs))⟩

theorem skipWs_encJ_append (ind : Nat) (j : J) (rest : List Char) :
    skipWs (encJ ind j ++ rest) = encJ ind j ++ rest := by
  obtain ⟨tl, h | h | h⟩ := encJ_head ind j <;>
    rw [h, List.cons_append, skipWs_not_ws _ (by decide)]

theorem fuelJ_pos (j : J) : 1 ≤ fuelJ j := by
  cases j with
  | str s => rw [fuelJ.eq_def]
  | arr l => rw [fuelJ.eq_def]; dsimp only; omega
  | obj m => rw [fuelJ.eq_def]; dsimp only; omega

theorem fuelJ_arr (l : List J) : fuelJ (J.arr l) = 1 + fuelElemsNeed l := by
  rw [fuelJ.eq_def]

theorem fuelJ_obj (m : List (String × J)) : fuelJ (J.obj m) = 1 + fuelMembersNeed m := by
  rw [fuelJ.eq_def]

theorem fuelElemsNeed_cons (x : J) (xs : List J) :
    fuelElemsNeed (x :: xs) = 1 + max (fuelJ x) (fuelElemsNeed xs) := by
  rw [fuelElemsNeed.eq_def]

theorem fuelMembersNeed_cons (kv : String × J) (xs : List (String × J)) :
    fuelMembersNeed (kv :: xs) = 1 + max (fuelJ kv.2) (fuelMembersNeed xs) := by
  rw [fuelMembersNeed.eq_def]


/-! ## JSON round trip -/

theorem parseJ_skipWs (fuel : Nat) (cs : List Char) :
    parseJ fuel cs = parseJ fuel (skipWs cs) := by
  cases fuel with
  | zero => rfl
  | succ g =>
    rw [parseJ.eq_def, parseJ.eq_def]
    dsimp only
    rw [skipWs_idem]

theorem skipWs_nl_spaces_encJ (ind2 : Nat) (x : J) (after : List Char) :
    skipWs ('\n' :: (spacesList ind2 ++ (encJ ind2 x ++ after))) = encJ ind2 x ++ after := by
  rw [skipWs_ws _ (by decide), skipWs_spaces, skipWs_encJ_append]

theorem skipWs_nl_spaces_close (indC : Nat) (c : Char) (rest : List Char)
    (h : isJsonWs c = false) :
    skipWs ('\n' :: (spacesList indC ++ (c :: rest))) = c :: rest := by
  rw [skipWs_ws _ (by decide), skipWs_spaces, skipWs_not_ws _ h]

theorem parseJ_encJ_aux (n : Nat) :
    (∀ j : J, fuelJ j ≤ n →
      ∀ fuel ind (rest : List Char), fuelJ j ≤ fuel →
        parseJ fuel (encJ ind j ++ rest) = some (j, rest)) ∧
    (∀ l : List J, fuelElemsNeed l ≤ n → l ≠ [] →
      ∀ fuel ind2 indC (rest : List Char), fuelElemsNeed l ≤ fuel →
        parseElems fuel
          ('\n' :: (encElems ind2 l ++ '\n' :: (spacesList indC ++ (']' :: rest))))
          = some (l, rest)) ∧
    (∀ m : List (String × J), fuelMembersNeed m ≤ n → m ≠ [] →
      ∀ fuel ind2 indC (rest : List Char), fuelMembersNeed m ≤ fuel →
        parseMembers fuel
          ('\n' :: (encMembers ind2 m ++ '\n' :: (spacesList indC ++ ('\x7d' :: rest))))
          = some (m, rest)) := by
  induction n using Nat.strong_induction_on with
  | _ n ih =>
    refine ⟨?_, ?_, ?_⟩
    · -- values
      intro j hjn fuel ind rest hjf
      obtain ⟨g, rfl⟩ : ∃ g, fuel = g + 1 := ⟨fuel - 1, by have := fuelJ_pos j; omega⟩
      cases j with
      | str s =>
        have he : encJ ind (J.str s) ++ rest = '"' :: (escBody s ++ '"' :: rest) := by
          rw [encJ_str, encStr, List.cons_append, List.append_assoc]
          rfl
        rw [he, parseJ_cons_quote g _ (escBody s ++ '"' :: rest)
            (skipWs_not_ws _ (by decide)), parseStrBody_encStr_tail]
        rfl
      | arr l =>
        cases l with
        | nil =>
          have he : encJ ind (J.arr []) ++ rest = '[' :: (']' :: rest) := by
            rw [encJ_arr_nil]; rfl
          rw [he]
          exact parseJ_arr_close g _ (']' :: rest) rest
            (skipWs_not_ws _ (by decide)) (skipWs_not_ws _ (by decide))
        | cons x xs =>
          have he : encJ ind (J.arr (x :: xs)) ++ rest
              = '[' :: ('\n' :: (encElems (ind + 2) (x :: xs)
                  ++ '\n' :: (spacesList ind ++ (']' :: rest)))) := by
            rw [encJ_arr_cons]
            simp only [List.cons_append, List.append_assoc, List.nil_append]
          rw [he]
          rw [fuelJ_arr] at hjn hjf
          have hQ := (ih (fuelElemsNeed (x :: xs)) (by omega)).2.1 (x :: xs) le_rfl
            (by simp) g (ind + 2) ind rest (by omega)
          -- the first element begins right after the indentation, so the
          -- parser takes the non-empty branch
          have hsk : ∃ after, skipWs ('\n' :: (encElems (ind + 2) (x :: xs)
              ++ '\n' :: (spacesList ind ++ (']' :: rest))))
              = encJ (ind + 2) x ++ after := by
            cases xs with
            | nil =>
              exact ⟨_, by
                rw [encElems_single]
                simp only [List.append_assoc]
                rw [skipWs_nl_spaces_encJ]⟩
            | cons y ys =>
              exact ⟨_, by
                rw [encElems_cons]
                simp only [List.append_assoc]
                rw [skipWs_nl_spaces_encJ]⟩
          obtain ⟨after, hsk⟩ := hsk
          obtain ⟨tl, hx | hx | hx⟩ := encJ_head (ind + 2) x <;>
            rw [hx, List.cons_append] at hsk <;>
            rw [parseJ_arr_go g _ _ _ _ (skipWs_not_ws _ (by decide)) hsk (by decide), hQ] <;>
            rfl
      | obj m =>
        cases m with
        | nil =>
          have he : encJ ind (J.obj []) ++ rest = '\x7b' :: ('\x7d' :: rest) := by
            rw [encJ_obj_nil]; rfl
          rw [he]
          exact parseJ_obj_close g _ ('\x7d' :: rest) rest
            (skipWs_not_ws _ (by decide)) (skipWs_not_ws _ (by decide))
        | cons x xs =>
          have he : encJ ind (J.obj (x :: xs)) ++ rest
              = '\x7b' :: ('\n' :: (encMembers (ind + 2) (x :: xs)
                  ++ '\n' :: (spacesList ind ++ ('\x7d' :: rest)))) := by
            rw [encJ_obj_cons]
            simp only [List.cons_append, List.append_assoc, List.nil_append]
          rw [he]
          rw [fuelJ_obj] at hjn hjf
          have hR := (ih (fuelMembersNeed (x :: xs)) (by omega)).2.2 (x :: xs) le_rfl
            (by simp) g (ind + 2) ind rest (by omega)
          have hhead : ∃ r2, skipWs ('\n' :: (encMembers (ind + 2) (x :: xs)
              ++ '\n' :: (spacesList ind ++ ('\x7d' :: rest)))) = '"' :: r2 := by
            obtain ⟨k, v⟩ := x
            cases xs with
            | nil =>
              exact ⟨_, by
                rw [encMembers_single, encStr]
                simp only [List.cons_append, List.append_assoc, List.nil_append]
                rw [skipWs_ws _ (by decide), skipWs_spaces, skipWs_not_ws _ (by decide)]⟩
            | cons y ys =>
              exact ⟨_, by
                rw [encMembers_cons, encStr]
                simp only [List.cons_append, List.append_assoc, List.nil_append]
                rw [skipWs_ws _ (by decide), skipWs_spaces, skipWs_not_ws _ (by decide)]⟩
          obtain ⟨r2, hsk⟩ := hhead
          rw [parseJ_obj_go g _ _ '"' r2 (skipWs_not_ws _ (by decide)) hsk (by decide), hR]
          rfl
    · -- array elements
      intro l hn hne fuel ind2 indC rest hf
      cases l with
      | nil => exact absurd rfl hne
      | cons x xs =>
        rw [fuelElemsNeed_cons] at hn hf
        have hmax1 := le_max_left (fuelJ x) (fuelElemsNeed xs)
        have hmax2 := le_max_right (fuelJ x) (fuelElemsNeed xs)
        obtain ⟨g, rfl⟩ : ∃ g, fuel = g + 1 := ⟨fuel - 1, by omega⟩
        have hPx := (ih (fuelJ x) (by omega)).1 x le_rfl
        have hgx : fuelJ x ≤ g := by omega
        cases xs with
        | nil =>
          have harg : '\n' :: (encElems ind2 [x]
                ++ '\n' :: (spacesList indC ++ (']' :: rest)))
              = '\n' :: (spacesList ind2 ++ (encJ ind2 x
                ++ '\n' :: (spacesList indC ++ (']' :: rest)))) := by
            rw [encElems_single, List.append_assoc]
          rw [harg]
          have h1 : parseJ g ('\n' :: (spacesList ind2 ++ (encJ ind2 x
              ++ '\n' :: (spacesList indC ++ (']' :: rest)))))
              = some (x, '\n' :: (spacesList indC ++ (']' :: rest))) := by
            rw [parseJ_skipWs, skipWs_nl_spaces_encJ]
            exact hPx g ind2 _ hgx
          exact parseElems_last g _ _ rest x h1
            (skipWs_nl_spaces_close indC ']' rest (by decide))
        | cons y ys =>
          have harg : '\n' :: (encElems ind2 (x :: y :: ys)
                ++ '\n' :: (spacesList indC ++ (']' :: rest)))
              = '\n' :: (spacesList ind2 ++ (encJ ind2 x
                ++ ',' :: ('\n' :: (encElems ind2 (y :: ys)
                  ++ '\n' :: (spacesList indC ++ (']' :: rest)))))) := by
            rw [encElems_cons]
            simp only [List.cons_append, List.append_assoc, List.nil_append]
          rw [harg]
          have h1 : parseJ g ('\n' :: (spacesList ind2 ++ (encJ ind2 x
              ++ ',' :: ('\n' :: (encElems ind2 (y :: ys)
                ++ '\n' :: (spacesList indC ++ (']' :: rest)))))))
              = some (x, ',' :: ('\n' :: (encElems ind2 (y :: ys)
                ++ '\n' :: (spacesList indC ++ (']' :: rest))))) := by
            rw [parseJ_skipWs, skipWs_nl_spaces_encJ]
            exact hPx g ind2 _ hgx
          have hQ := (ih (fuelElemsNeed (y :: ys)) (by omega)).2.1 (y :: ys) le_rfl
            (by simp) g ind2 indC rest (by omega)
          rw [parseElems_comma g _ _ _ x h1 (skipWs_not_ws _ (by decide)), hQ]
          rfl
    · -- object members
      intro m hn hne fuel ind2 indC rest hf
      cases m with
      | nil => exact absurd rfl hne
      | cons x xs =>
        obtain ⟨k, v⟩ := x
        rw [fuelMembersNeed_cons] at hn hf
        replace hn : 1 + max (fuelJ v) (fuelMembersNeed xs) ≤ n := hn
        replace hf : 1 + max (fuelJ v) (fuelMembersNeed xs) ≤ fuel := hf
        have hmax1 := le_max_left (fuelJ v) (fuelMembersNeed xs)
        have hmax2 := le_max_right (fuelJ v) (fuelMembersNeed xs)
        obtain ⟨g, rfl⟩ : ∃ g, fuel = g + 1 := ⟨fuel - 1, by omega⟩
        have hPv := (ih (fuelJ v) (by omega)).1 v le_rfl
        have hgv : fuelJ v ≤ g := by omega
        cases xs with
        | nil =>
          have harg : '\n' :: (encMembers ind2 [(k, v)]
                ++ '\n' :: (spacesList indC ++ ('\x7d' :: rest)))
              = '\n' :: (spacesList ind2 ++ ('"' :: (escBody k
                ++ '"' :: (':' :: (' ' :: (encJ ind2 v
                  ++ '\n' :: (spacesList indC ++ ('\x7d' :: rest)))))))) := by
            rw [encMembers_single, encStr]
            simp only [List.cons_append, List.append_assoc, List.nil_append]
          rw [harg]
          have h0 : skipWs ('\n' :: (spacesList ind2 ++ ('"' :: (escBody k
              ++ '"' :: (':' :: (' ' :: (encJ ind2 v
                ++ '\n' :: (spacesList indC ++ ('\x7d' :: rest)))))))))
              = '"' :: (escBody k ++ '"' :: (':' :: (' ' :: (encJ ind2 v
                ++ '\n' :: (spacesList indC ++ ('\x7d' :: rest)))))) := by
            rw [skipWs_ws _ (by decide), skipWs_spaces, skipWs_not_ws _ (by decide)]
          have h3 : parseJ g (' ' :: (encJ ind2 v
              ++ '\n' :: (spacesList indC ++ ('\x7d' :: rest))))
              = some (v, '\n' :: (spacesList indC ++ ('\x7d' :: rest))) := by
            rw [parseJ_skipWs, skipWs_ws _ (by decide), skipWs_encJ_append]
            exact hPv g ind2 _ hgv
          have := parseMembers_last g _ _ _ _ _ _ k.data v h0
            (parseStrBody_encStr_tail k _) (skipWs_not_ws _ (by decide)) h3
            (skipWs_nl_spaces_close indC '\x7d' rest (by decide))
          rw [this]
        | cons y ys =>
          have harg : '\n' :: (encMembers ind2 ((k, v) :: y :: ys)
                ++ '\n' :: (spacesList indC ++ ('\x7d' :: rest)))
              = '\n' :: (spacesList ind2 ++ ('"' :: (escBody k
                ++ '"' :: (':' :: (' ' :: (encJ ind2 v
                  ++ ',' :: ('\n' :: (encMembers ind2 (y :: ys)
                    ++ '\n' :: (spacesList indC ++ ('\x7d' :: rest)))))))))) := by
            rw [encMembers_cons, encStr]
            simp only [List.cons_append, List.append_assoc, List.nil_append]
          rw [harg]
          have h0 : skipWs ('\n' :: (spacesList ind2 ++ ('"' :: (escBody k
              ++ '"' :: (':' :: (' ' :: (encJ ind2 v
                ++ ',' :: ('\n' :: (encMembers ind2 (y :: ys)
                  ++ '\n' :: (spacesList indC ++ ('\x7d' :: rest)))))))))))
              = '"' :: (escBody k ++ '"' :: (':' :: (' ' :: (encJ ind2 v
                ++ ',' :: ('\n' :: (encMembers ind2 (y :: ys)
                  ++ '\n' :: (spacesList indC ++ ('\x7d' :: rest)))))))) := by
            rw [skipWs_ws _ (by decide), skipWs_spaces, skipWs_not_ws _ (by decide)]
          have h3 : parseJ g (' ' :: (encJ ind2 v
              ++ ',' :: ('\n' :: (encMembers ind2 (y :: ys)
                ++ '\n' :: (spacesList indC ++ ('\x7d' :: rest))))))
              = some (v, ',' :: ('\n' :: (encMembers ind2 (y :: ys)
                ++ '\n' :: (spacesList indC ++ ('\x7d' :: rest))))) := by
            rw [parseJ_skipWs, skipWs_ws _ (by decide), skipWs_encJ_append]
            exact hPv g ind2 _ hgv
          have hR := (ih (fuelMembersNeed (y :: ys)) (by omega)).2.2 (y :: ys) le_rfl
            (by simp) g ind2 indC rest (by omega)
          have := parseMembers_comma g _ _ _ _ _ _ k.data v h0
            (parseStrBody_encStr_tail k _) (skipWs_not_ws _ (by decide)) h3
            (skipWs_not_ws _ (by decide))
          rw [this, hR]
          rfl


theorem parseJ_encJ (j : J) (ind : Nat) (rest : List Char) (fuel : Nat)
    (h : fuelJ j ≤ fuel) :
    parseJ fuel (encJ ind j ++ rest) = some (j, rest) :=
  (parseJ_encJ_aux (fuelJ j)).1 j le_rfl fuel ind rest h

theorem encStr_length (s : String) : (encStr s).length = (escBody s).length + 2 := by
  simp [encStr]

theorem fuelJ_le_enc_aux (n : Nat) :
    (∀ j : J, fuelJ j ≤ n → ∀ ind, fuelJ j + 1 ≤ (encJ ind j).length) ∧
    (∀ l : List J, fuelElemsNeed l ≤ n → l ≠ [] →
      ∀ ind, fuelElemsNeed l ≤ (encElems ind l).length) ∧
    (∀ m : List (String × J), fuelMembersNeed m ≤ n → m ≠ [] →
      ∀ ind, fuelMembersNeed m ≤ (encMembers ind m).length) := by
  induction n using Nat.strong_induction_on with
  | _ n ih =>
    refine ⟨?_, ?_, ?_⟩
    · intro j hjn ind
      cases j with
      | str s => rw [encJ_str, encStr_length, fuelJ.eq_def]; dsimp only; omega
      | arr l =>
        cases l with
        | nil => rw [encJ_arr_nil, fuelJ_arr, fuelElemsNeed.eq_def]; rfl
        | cons x xs =>
          rw [fuelJ_arr] at hjn ⊢
          have hQ := (ih (fuelElemsNeed (x :: xs)) (by omega)).2.1 (x :: xs) le_rfl
            (by simp) (ind + 2)
          rw [encJ_arr_cons]
          simp only [List.length_cons, List.length_append, List.length_cons]
          omega
      | obj m =>
        cases m with
        | nil => rw [encJ_obj_nil, fuelJ_obj, fuelMembersNeed.eq_def]; rfl
        | cons x xs =>
          rw [fuelJ_obj] at hjn ⊢
          have hR := (ih (fuelMembersNeed (x :: xs)) (by omega)).2.2 (x :: xs) le_rfl
            (by simp) (ind + 2)
          rw [encJ_obj_cons]
          simp only [List.length_cons, List.length_append, List.length_cons]
          omega
    · intro l hn hne ind
      cases l with
      | nil => exact absurd rfl hne
      | cons x xs =>
        rw [fuelElemsNeed_cons] at hn ⊢
        have hmax1 := le_max_left (fuelJ x) (fuelElemsNeed xs)
        have hmax2 := le_max_right (fuelJ x) (fuelElemsNeed xs)
        have hmax3 := max_le_iff.mpr ⟨le_refl (fuelJ x), Nat.le_refl _⟩
        have hPx := (ih (fuelJ x) (by omega)).1 x le_rfl ind
        cases xs with
        | nil =>
          rw [encElems_single]
          simp only [List.length_append, fuelElemsNeed.eq_def]
          have : max (fuelJ x) 0 = fuelJ x := by omega
          omega
        | cons y ys =>
          have hQ := (ih (fuelElemsNeed (y :: ys)) (by omega)).2.1 (y :: ys) le_rfl
            (by simp) ind
          rw [encElems_cons]
          simp only [List.length_append, List.length_cons]
          omega
    · intro m hn hne ind
      cases m with
      | nil => exact absurd rfl hne
      | cons x xs =>
        obtain ⟨k, v⟩ := x
        rw [fuelMembersNeed_cons] at hn ⊢
        replace hn : 1 + max (fuelJ v) (fuelMembersNeed xs) ≤ n := hn
        have hmax1 := le_max_left (fuelJ v) (fuelMembersNeed xs)
        have hmax2 := le_max_right (fuelJ v) (fuelMembersNeed xs)
        have hPv := (ih (fuelJ v) (by omega)).1 v le_rfl ind
        show 1 + max (fuelJ v) (fuelMembersNeed xs) ≤ _
        cases xs with
        | nil =>
          rw [encMembers_single]
          simp only [List.length_append, List.length_cons, fuelMembersNeed.eq_def]
          omega
        | cons y ys =>
          have hR := (ih (fuelMembersNeed (y :: ys)) (by omega)).2.2 (y :: ys) le_rfl
            (by simp) ind
          rw [encMembers_cons]
          simp only [List.length_append, List.length_cons]
          omega

/-- `json.loads` parses `json.dumps` back to the same JSON value. -/
theorem jsonLoads_jsonDumps (j : J) : jsonLoads (jsonDumps j) = some j := by
  unfold jsonLoads jsonDumps
  have hlen : fuelJ j ≤ (encJ 0 j).length + 1 := by
    have := (fuelJ_le_enc_aux (fuelJ j)).1 j le_rfl 0
    omega
  have hparse := parseJ_encJ j 0 [] ((encJ 0 j).length + 1) hlen
  rw [List.append_nil] at hparse
  rw [show (⟨encJ 0 j⟩ : String).data = encJ 0 j from rfl, hparse]
  rfl


theorem mapM_loop_jStr (l acc : List String) :
    List.mapM.loop jStr? (l.map J.str) acc = some (acc.reverse ++ l) := by
  induction l generalizing acc with
  | nil => simp [List.mapM.loop]
  | cons x xs ih => simp [List.mapM.loop, jStr?, ih]

theorem mapM_jStr_map (l : List String) : (l.map J.str).mapM jStr? = some l := by
  simpa using mapM_loop_jStr l []

theorem actionItemFromJson_toJson (a : ActionItem) :
    actionItemFromJson (actionItemToJson a) = some a := rfl

theorem mapM_loop_actionItems (l acc : List ActionItem) :
    List.mapM.loop actionItemFromJson (l.map actionItemToJson) acc
      = some (acc.reverse ++ l) := by
  induction l generalizing acc with
  | nil => simp [List.mapM.loop]
  | cons x xs ih => simp [List.mapM.loop, actionItemFromJson_toJson, ih]

theorem mapM_actionItems_map (l : List ActionItem) :
    (l.map actionItemToJson).mapM actionItemFromJson = some l := by
  simpa using mapM_loop_actionItems l []

theorem minutesFromJson_toJson (m : MinutesRecord) :
    minutesFromJson (minutesToJson m) = some m := by
  obtain ⟨⟨t, d, p, du⟩, su, kd, ai, ns, ft⟩ := m
  simp [minutesFromJson, minutesToJson, jLookup, jArrElems, jStr?, List.lookup,
    mapM_loop_jStr, mapM_loop_actionItems]


/-! ## Helper lemmas about the metric computations -/

theorem pyMin_one_le_one (x : ℚ) : pyMin 1 x ≤ 1 := by
  unfold pyMin
  split
  · exact le_refl 1
  · next h => linarith

theorem clamp01_nonneg (x : ℚ) : 0 ≤ pyMax 0 (pyMin 1 x) := by
  unfold pyMax
  split
  · exact le_refl 0
  · next h => linarith

theorem clamp01_le_one (x : ℚ) : pyMax 0 (pyMin 1 x) ≤ 1 := by
  unfold pyMax
  split
  · norm_num
  · exact pyMin_one_le_one x

theorem ratio_nonneg (a b : Nat) : 0 ≤ ((a : ℚ) / (b : ℚ)) := by
  positivity

theorem ratio_le_one {a b : Nat} (hab : a ≤ b) : ((a : ℚ) / (b : ℚ)) ≤ 1 := by
  rcases Nat.eq_zero_or_pos b with hb | hb
  · subst hb; simp
  · rw [div_le_one (by exact_mod_cast hb)]
    exact_mod_cast hab

theorem wer_nonneg (reference hypothesis : String) : 0 ≤ calculate_wer reference hypothesis := by
  unfold calculate_wer
  dsimp only
  split
  · split <;> norm_num
  · exact clamp01_nonneg _

theorem wer_le_one (reference hypothesis : String) : calculate_wer reference hypothesis ≤ 1 := by
  unfold calculate_wer
  dsimp only
  split
  · split <;> norm_num
  · exact clamp01_le_one _

theorem cer_nonneg (reference hypothesis : String) : 0 ≤ calculate_cer reference hypothesis := by
  unfold calculate_cer
  dsimp only
  split
  · split <;> norm_num
  · exact clamp01_nonneg _

theorem cer_le_one (reference hypothesis : String) : calculate_cer reference hypothesis ≤ 1 := by
  unfold calculate_cer
  dsimp only
  split
  · split <;> norm_num
  · exact clamp01_le_one _

theorem setInterCard_le_left {α : Type} [DecidableEq α] (a b : List α) :
    setInterCard a b ≤ setCard a :=
  Finset.card_le_card Finset.inter_subset_left

theorem setInterCard_le_right {α : Type} [DecidableEq α] (a b : List α) :
    setInterCard a b ≤ setCard b :=
  Finset.card_le_card Finset.inter_subset_right

theorem setCard_le_length {α : Type} [DecidableEq α] (a : List α) :
    setCard a ≤ a.length :=
  a.toFinset_card_le

theorem bleu_nonneg (reference hypothesis : String) : 0 ≤ calculate_bleu reference hypothesis := by
  unfold calculate_bleu
  dsimp only
  split
  · norm_num
  · exact ratio_nonneg _ _

theorem bleu_le_one (reference hypothesis : String) : calculate_bleu reference hypothesis ≤ 1 := by
  unfold calculate_bleu
  dsimp only
  split
  · norm_num
  · exact ratio_le_one (setInterCard_le_right _ _)

theorem rouge1_nonneg (reference hypothesis : String) :
    0 ≤ calculate_rouge_1 reference hypothesis := by
  unfold calculate_rouge_1
  dsimp only
  split
  · norm_num
  · exact ratio_nonneg _ _

theorem rouge1_le_one (reference hypothesis : String) :
    calculate_rouge_1 reference hypothesis ≤ 1 := by
  unfold calculate_rouge_1
  dsimp only
  split
  · norm_num
  · exact ratio_le_one (setInterCard_le_left _ _)

theorem rouge2_nonneg (reference hypothesis : String) :
    0 ≤ calculate_rouge_2 reference hypothesis := by
  unfold calculate_rouge_2
  dsimp only
  split
  · norm_num
  · exact ratio_nonneg _ _

theorem rouge2_le_one (reference hypothesis : String) :
    calculate_rouge_2 reference hypothesis ≤ 1 := by
  unfold calculate_rouge_2
  dsimp only
  split
  · norm_num
  · exact ratio_le_one ((setInterCard_le_left _ _).trans (setCard_le_length _))

end Minutes

namespace Minutes

theorem bigrams_length (t : String) :
    (get_bigrams t).length = (pyWords t).length - 1 := by
  unfold get_bigrams
  dsimp only
  rw [List.length_zip, List.length_tail]
  exact Nat.min_eq_right (Nat.sub_le _ _)

/-- Positional character agreement of a list against itself extended by a
tail: every position matches. -/
theorem zip_self_filter_eq_length (l t : List Char) :
    ((l.zip (l ++ t)).filter (fun p => p.1 == p.2)).length = l.length := by
  induction l with
  | nil => simp
  | cons c cs ih => simpa using ih

/-! ## Claim theorems: evaluator -/

/-- C1, counterexample: with reference `"a a"` and hypothesis `"a"`, the code's
`word_error_rate` is `1/2` (denominator `len(ref_words) = 2`, duplicates
included) while the claimed distinct-word-denominator formula gives `0`. -/
theorem wer_distinct_formula_cex :
    (evaluate_transcription "a a" "a").word_error_rate ≠ werSpecDistinct "a a" "a" := by
  with_unfolding_all decide

/-- C1, amended: for every reference and hypothesis, `evaluate_transcription`'s
`word_error_rate` equals `clamp(1 − |{distinct lowercase words common to
both}| / (total word count of the reference, duplicates included), 0, 1)`,
with the stated zero-word special case. -/
theorem wer_eq_total_formula (reference hypothesis : String) :
    (evaluate_transcription reference hypothesis).word_error_rate =
      werSpecTotal reference hypothesis := rfl

/-- C2, counterexample: with reference `"a b a b"` and hypothesis `"a b a"`,
the code's `rouge_2` is `2/3` (denominator `len(ref_bigrams) = 3`, duplicate
pairs included) while the claimed distinct-pair-denominator formula gives `1`. -/
theorem rouge2_distinct_formula_cex :
    (evaluate_summarization "a b a b" "a b a").rouge_2 ≠
      rouge2SpecDistinct "a b a b" "a b a" := by
  with_unfolding_all decide

/-- C2, amended: for every reference and hypothesis, `evaluate_summarization`'s
`rouge_2` equals `|{common distinct lowercase consecutive-word-pairs}| /
(total number of consecutive word pairs of the reference, i.e. its word count
minus one)`, and is `0` when the reference has fewer than 2 words. -/
theorem rouge2_eq_total_formula (reference hypothesis : String) :
    (evaluate_summarization reference hypothesis).rouge_2 =
      rouge2SpecTotal reference hypothesis := by
  show calculate_rouge_2 reference hypothesis = rouge2SpecTotal reference hypothesis
  unfold calculate_rouge_2 rouge2SpecTotal
  dsimp only
  rw [bigrams_length (pyLower reference)]
  by_cases hl : (pyWords (pyLower reference)).length < 2
  · rw [if_pos (by omega), if_pos hl]
  · rw [if_neg (by omega), if_neg hl]

/-- C8: every score returned by `evaluate_transcription` (word error rate,
character error rate, BLEU, accuracy) and by `evaluate_summarization`
(ROUGE-1, ROUGE-2, ROUGE-L, semantic similarity) lies in `[0, 1]`. -/
theorem all_scores_in_unit_interval (reference hypothesis : String) :
    (0 ≤ (evaluate_transcription reference hypothesis).word_error_rate ∧
      (evaluate_transcription reference hypothesis).word_error_rate ≤ 1) ∧
    (0 ≤ (evaluate_transcription reference hypothesis).character_error_rate ∧
      (evaluate_transcription reference hypothesis).character_error_rate ≤ 1) ∧
    (0 ≤ (evaluate_transcription reference hypothesis).bleu_score ∧
      (evaluate_transcription reference hypothesis).bleu_score ≤ 1) ∧
    (0 ≤ (evaluate_transcription reference hypothesis).accuracy ∧
      (evaluate_transcription reference hypothesis).accuracy ≤ 1) ∧
    (0 ≤ (evaluate_summarization reference hypothesis).rouge_1 ∧
      (evaluate_summarization reference hypothesis).rouge_1 ≤ 1) ∧
    (0 ≤ (evaluate_summarization reference hypothesis).rouge_2 ∧
      (evaluate_summarization reference hypothesis).rouge_2 ≤ 1) ∧
    (0 ≤ (evaluate_summarization reference hypothesis).rouge_l ∧
      (evaluate_summarization reference hypothesis).rouge_l ≤ 1) ∧
    (0 ≤ (evaluate_summarization reference hypothesis).semantic_similarity ∧
      (evaluate_summarization reference hypothesis).semantic_similarity ≤ 1) := by
  refine ⟨⟨wer_nonneg _ _, wer_le_one _ _⟩,
    ⟨cer_nonneg _ _, cer_le_one _ _⟩,
    ⟨bleu_nonneg _ _, bleu_le_one _ _⟩,
    ⟨?_, ?_⟩,
    ⟨rouge1_nonneg _ _, rouge1_le_one _ _⟩,
    ⟨rouge2_nonneg _ _, rouge2_le_one _ _⟩,
    ⟨rouge1_nonneg _ _, rouge1_le_one _ _⟩,
    ⟨rouge1_nonneg _ _, rouge1_le_one _ _⟩⟩
  · have := wer_le_one reference hypothesis
    show (0 : ℚ) ≤ 1 - calculate_wer reference hypothesis
    linarith
  · have := wer_nonneg reference hypothesis
    show (1 : ℚ) - calculate_wer reference hypothesis ≤ 1
    linarith

/-- C10: when the reference is non-empty and the hypothesis's lowercasing
begins with the reference's lowercasing, the character error rate is `0`:
positions are compared only over the shorter (reference) length, so extra
trailing hypothesis content is never compared. -/
theorem cer_zero_of_lower_prefix (reference hypothesis : String)
    (href : reference.data ≠ [])
    (hpre : (pyLower reference).data <+: (pyLower hypothesis).data) :
    (evaluate_transcription reference hypothesis).character_error_rate = 0 := by
  show calculate_cer reference hypothesis = 0
  unfold calculate_cer
  dsimp only
  rw [if_neg (fun h => href (List.length_eq_zero.mp h))]
  obtain ⟨t, ht⟩ := hpre
  rw [← ht, zip_self_filter_eq_length]
  have hlen : (pyLower reference).data.length = reference.data.length := by
    simp [pyLower]
  rw [hlen]
  have hne : ((reference.data.length : ℚ)) ≠ 0 := by
    have : reference.data.length ≠ 0 := fun h => href (List.length_eq_zero.mp h)
    exact_mod_cast this
  rw [div_self hne]
  norm_num [pyMin, pyMax]

/-- C10, witness: reference `"Ab"`, hypothesis `"aBc"`. -/
theorem cer_zero_of_lower_prefix_witness :
    ("Ab" : String).data ≠ [] ∧
    (pyLower "Ab").data <+: (pyLower "aBc").data ∧
    (evaluate_transcription "Ab" "aBc").character_error_rate = 0 :=
  ⟨by decide, by decide,
    cer_zero_of_lower_prefix "Ab" "aBc" (by decide) (by decide)⟩

/-! ## Summarizer helper lemmas -/

theorem extract_llm_decisions_le (oracle : String → Option String) (transcript : String) :
    (extract_llm_decisions oracle transcript).length ≤ 5 := by
  unfold extract_llm_decisions
  cases oracle (decisions_prompt transcript) with
  | none => simp [extract_demo_decisions]
  | some txt =>
    dsimp only
    calc (List.take 5 _).length ≤ 5 := by rw [List.length_take]; omega

theorem extract_llm_action_items_le (oracle : String → Option String) (transcript : String) :
    (extract_llm_action_items oracle transcript).length ≤ 5 := by
  unfold extract_llm_action_items
  cases oracle (action_items_prompt transcript) with
  | none => simp [extract_demo_action_items]
  | some txt =>
    dsimp only
    calc (List.filterMap _ (List.take 5 _)).length
        ≤ (List.take 5 (pySplitChar '\n' (pyStrip (pySplitLast "Action Items:" txt)))).length :=
          List.length_filterMap_le _ _
      _ ≤ 5 := by rw [List.length_take]; omega

theorem extract_llm_next_steps_le (oracle : String → Option String) (transcript : String) :
    (extract_llm_next_steps oracle transcript).length ≤ 5 := by
  unfold extract_llm_next_steps
  cases oracle (next_steps_prompt transcript) with
  | none => simp [extract_demo_next_steps]
  | some txt =>
    dsimp only
    calc (List.take 5 _).length ≤ 5 := by rw [List.length_take]; omega

/-! ## Claim theorems: summarizer, exporter, audio -/

/-- C3: every minutes record built by `generate_minutes` — via the backend or
via the demo fallback — carries the six fields `meeting_info`, `summary`,
`key_decisions`, `action_items`, `next_steps`, `full_transcript`; the three
list fields have at most 5 entries; and `full_transcript` is the input
transcript text verbatim. -/
theorem generate_minutes_shape (backend : Backend) (env : Env)
    (meeting_data : MeetingData) (max_length : Nat) :
    jObjKeys (minutesToJson (generate_minutes backend env meeting_data max_length)) =
      ["meeting_info", "summary", "key_decisions", "action_items", "next_steps",
        "full_transcript"] ∧
    (generate_minutes backend env meeting_data max_length).key_decisions.length ≤ 5 ∧
    (generate_minutes backend env meeting_data max_length).action_items.length ≤ 5 ∧
    (generate_minutes backend env meeting_data max_length).next_steps.length ≤ 5 ∧
    (generate_minutes backend env meeting_data max_length).full_transcript =
      meeting_data.transcript_text.getD "" := by
  refine ⟨rfl, ?_, ?_, ?_, ?_⟩ <;> cases backend with
  | demo => simp [generate_minutes, generate_demo_minutes, extract_demo_decisions,
      extract_demo_action_items, extract_demo_next_steps]
  | ready oracle =>
    first
    | exact extract_llm_decisions_le oracle _
    | exact extract_llm_action_items_le oracle _
    | exact extract_llm_next_steps_le oracle _
    | rfl

/-- C4: in Demo mode `generate_minutes` does not read the ambient clock: two
calls with the same meeting data and length bound under different
environments return identical summary, key decisions, action items and next
steps. -/
theorem demo_minutes_deterministic (env1 env2 : Env) (meeting_data : MeetingData)
    (max_length : Nat) :
    (generate_minutes Backend.demo env1 meeting_data max_length).summary =
      (generate_minutes Backend.demo env2 meeting_data max_length).summary ∧
    (generate_minutes Backend.demo env1 meeting_data max_length).key_decisions =
      (generate_minutes Backend.demo env2 meeting_data max_length).key_decisions ∧
    (generate_minutes Backend.demo env1 meeting_data max_length).action_items =
      (generate_minutes Backend.demo env2 meeting_data max_length).action_items ∧
    (generate_minutes Backend.demo env1 meeting_data max_length).next_steps =
      (generate_minutes Backend.demo env2 meeting_data max_length).next_steps :=
  ⟨rfl, rfl, rfl, rfl⟩

set_option maxRecDepth 40000 in
/-- C5: the duration estimate is `"<N> minutes"` with
`N = max(1, word-count / 150)`; 450 words give `"3 minutes"` and 1 word gives
`"1 minutes"`. -/
theorem estimate_duration_spec_eq :
    (∀ transcript, estimate_duration transcript = durationSpec transcript) ∧
    estimate_duration (String.intercalate " " (List.replicate 450 "word")) = "3 minutes" ∧
    estimate_duration "word" = "1 minutes" := by
  refine ⟨fun transcript => rfl, ?_, ?_⟩
  · decide
  · decide


/-! ## Exporter helper lemmas -/

theorem map_update_keys_all (P : String → Bool) (k : String) (v : String)
    (d : List (String × String)) (hk : P k = true)
    (hd : (d.map Prod.fst).all P = true) :
    (((d.map (fun p => if p.1 == k then (k, v) else p)).map Prod.fst)).all P = true := by
  induction d with
  | nil => rfl
  | cons hd0 tl ih =>
    simp only [List.map_cons, List.all_cons, Bool.and_eq_true] at hd ⊢
    refine ⟨?_, ih hd.2⟩
    by_cases h : hd0.1 == k
    · simp [h, hk]
    · simp [h, hd.1]

theorem dictInsert_keys_all (P : String → Bool) (k v : String)
    (d : List (String × String)) (hk : P k = true)
    (hd : (d.map Prod.fst).all P = true) :
    ((dictInsert k v d).map Prod.fst).all P = true := by
  unfold dictInsert
  split
  · exact map_update_keys_all P k v d hk hd
  · simp only [List.map_append, List.all_append, Bool.and_eq_true]
    exact ⟨hd, by simp [hk]⟩

theorem outputsStep_keys_all (env : Env) (minutes : MinutesRecord)
    (acc : List (String × String)) (format_name : String)
    (hacc : (acc.map Prod.fst).all
      (fun key => key == "JSON" || key == "HTML" || key == "PDF") = true) :
    ((outputsStep env minutes acc format_name).map Prod.fst).all
      (fun key => key == "JSON" || key == "HTML" || key == "PDF") = true := by
  unfold outputsStep
  split
  · exact dictInsert_keys_all _ _ _ _ (by decide) hacc
  split
  · exact dictInsert_keys_all _ _ _ _ (by decide) hacc
  split
  · exact dictInsert_keys_all _ _ _ _ (by decide) hacc
  exact hacc

theorem foldl_outputsStep_keys_all (env : Env) (minutes : MinutesRecord)
    (formats : List String) (acc : List (String × String))
    (hacc : (acc.map Prod.fst).all
      (fun key => key == "JSON" || key == "HTML" || key == "PDF") = true) :
    (((formats.foldl (outputsStep env minutes) acc).map Prod.fst)).all
      (fun key => key == "JSON" || key == "HTML" || key == "PDF") = true := by
  induction formats generalizing acc with
  | nil => exact hacc
  | cons f fs ih => exact ih _ (outputsStep_keys_all env minutes acc f hacc)

/-- C6: an export bundle only ever contains the keys `JSON`, `HTML`, `PDF`
(an unrecognized identifier is skipped without error), and a request for only
`"UNKNOWN"` yields an empty mapping. -/
theorem generate_outputs_known_keys :
    (∀ (env : Env) (minutes : MinutesRecord) (formats : List String),
      (((generate_outputs env minutes formats).map Prod.fst)).all
        (fun key => key == "JSON" || key == "HTML" || key == "PDF") = true) ∧
    (∀ (env : Env) (minutes : MinutesRecord),
      generate_outputs env minutes ["UNKNOWN"] = []) :=
  ⟨fun env minutes formats =>
    foldl_outputsStep_keys_all env minutes formats [] rfl,
   fun env minutes => rfl⟩

/-- C7: the JSON payload of an export parses back to exactly the serialized
record (`decode(encode(x)) = x`), and on the sample record with title
`"Test"`, one decision and one action item, the decoded payload shows
`meeting_info.title = "Test"` and one `key_decisions` entry. -/
theorem json_export_round_trip :
    (∀ m : MinutesRecord, jsonLoads (generate_json m) = some (minutesToJson m)) ∧
    (∀ m : MinutesRecord, (jsonLoads (generate_json m)).bind minutesFromJson = some m) ∧
    ((jsonLoads (generate_json sampleRecord)).bind (jLookup "meeting_info")).bind
        (jLookup "title") = some (J.str "Test") ∧
    ((jsonLoads (generate_json sampleRecord)).map
        (fun v => (jArrElems ((jLookup "key_decisions" v).getD (J.arr []))).length))
      = some 1 := by
  have h : ∀ m : MinutesRecord, jsonLoads (generate_json m) = some (minutesToJson m) :=
    fun m => jsonLoads_jsonDumps (minutesToJson m)
  refine ⟨h, fun m => ?_, ?_, ?_⟩
  · rw [h m]
    exact minutesFromJson_toJson m
  · rw [h sampleRecord]
    rfl
  · rw [h sampleRecord]
    rfl

/-- C9: `validate_file` accepts a path exactly when the lowercased extension
of its final component is one of the six supported media extensions. -/
theorem validate_file_iff (file_path : String) :
    validate_file file_path = true ↔
      (pyLower (pathSuffix file_path) = ".mp3" ∨
       pyLower (pathSuffix file_path) = ".wav" ∨
       pyLower (pathSuffix file_path) = ".mp4" ∨
       pyLower (pathSuffix file_path) = ".avi" ∨
       pyLower (pathSuffix file_path) = ".mov" ∨
       pyLower (pathSuffix file_path) = ".mkv") := by
  unfold validate_file supported_formats
  dsimp only
  simp [List.contains_eq_any_beq, List.mem_cons]


end Minutes
